import Mathlib

/-!
Verification of the InfoSight submission-processing pipeline.

The development shallowly embeds the two Supabase edge functions
`supabase/functions/process-submission/index.ts` and
`supabase/functions/reprocess-transcripts/index.ts`.  Strings are modelled
as `List Char` for the sanitizer (`cleanJsonResponse`) and as Lean `String`
for database row fields.  The outbound HTTP calls (storage download,
Whisper transcription, GPT analysis) and `JSON.parse` are modelled as
oracle values/functions supplied in an environment record; the pipeline
itself is a pure function of that environment, mirroring the source's
control flow branch by branch.
-/

namespace InfoSight

/-! ### JavaScript string primitives used by the source -/

/-- Whitespace as matched by JavaScript `\s` / `String.prototype.trim`:
ASCII whitespace plus NBSP, BOM and the Unicode space/line separators. -/
def jsWS (c : Char) : Bool :=
  c = ' ' || c = '\t' || c = '\n' || c = '\r' || c = '\x0b' || c = '\x0c' ||
  c.val = 0xa0 || c.val = 0x1680 || (0x2000 ≤ c.val && c.val ≤ 0x200a) ||
  c.val = 0x2028 || c.val = 0x2029 || c.val = 0x202f || c.val = 0x205f ||
  c.val = 0x3000 || c.val = 0xfeff

/-- Remove leading JS whitespace (the `\s*` part of a leading regex match,
and one half of `trim`). -/
def jsTrimL (s : List Char) : List Char := s.dropWhile jsWS

/-- Remove trailing JS whitespace. -/
def jsTrimR (s : List Char) : List Char := (s.reverse.dropWhile jsWS).reverse

/-- JavaScript `String.prototype.trim`. -/
def jsTrim (s : List Char) : List Char := jsTrimR (jsTrimL s)

/-- JavaScript `String.prototype.startsWith` on character lists. -/
def hasPre : List Char → List Char → Bool
  | _, [] => true
  | [], _ :: _ => false
  | c :: s, p :: ps => (c = p) && hasPre s ps

/-- JavaScript `String.prototype.endsWith` on character lists. -/
def hasSuf (s p : List Char) : Bool := hasPre s.reverse p.reverse

/-- JavaScript `String.prototype.indexOf` for a single character
(`none` plays the role of `-1`). -/
def firstIdxOf (a : Char) : List Char → Option Nat
  | [] => none
  | c :: s => if c = a then some 0 else (firstIdxOf a s).map (· + 1)

/-- JavaScript `String.prototype.lastIndexOf` for a single character:
the index of the last occurrence, when there is one. -/
def lastIdxOf (a : Char) : List Char → Option Nat
  | [] => none
  | c :: s =>
    match lastIdxOf a s with
    | some j => some (j + 1)
    | none => if c = a then some 0 else none

/-- JavaScript `String.prototype.includes` on character lists. -/
def containsSub (pat : List Char) : List Char → Bool
  | [] => hasPre [] pat
  | c :: t => hasPre (c :: t) pat || containsSub pat t

/-- JavaScript `String.prototype.includes` on Lean strings. -/
def containsS (s pat : String) : Bool := containsSub pat.data s.data

/-! ### `cleanJsonResponse`
(`process-submission/index.ts` lines 26-52; an identical copy is at
`reprocess-transcripts/index.ts` lines 15-41).

The fence-stripping phase translates each guarded `replace` literally:
under the guard `cleaned.startsWith('```json')`, the regex
`/^```json\s*/` removes exactly the seven fence characters plus the
maximal whitespace run following them; under `cleaned.endsWith('```')`,
the leftmost match of `/\s*```$/` is the maximal whitespace run
immediately preceding the final three backticks together with those
backticks. -/

/-- The value of `cleaned` after the fence stripping and the second
`trim`, i.e. the state of the source's `cleaned` variable just before the
brace search. -/
def stripFences (content : List Char) : List Char :=
  let c0 := jsTrim content
  let c1 := if hasPre c0 "```json".data then jsTrimL (c0.drop 7) else c0
  let c2 := if hasPre c1 "```".data then jsTrimL (c1.drop 3) else c1
  let c3 := if hasSuf c2 "```".data then jsTrimR (c2.take (c2.length - 3)) else c2
  jsTrim c3

/-- The function `cleanJsonResponse` from the source: strip fences, then, when the
first `\x7b` occurs strictly before the last `\x7d`, return the
`substring(firstBrace, lastBrace + 1)`. -/
def cleanJsonResponse (content : List Char) : List Char :=
  let cleaned := stripFences content
  match firstIdxOf '\x7b' cleaned, lastIdxOf '\x7d' cleaned with
  | some i, some j => if i < j then (cleaned.take (j + 1)).drop i else cleaned
  | none, _ => cleaned
  | some _, none => cleaned

/-- The sanitizer lifted to Lean strings, used by the pipeline
embeddings. -/
def cleanJsonResponseS (s : String) : String := String.mk (cleanJsonResponse s.data)

/-! ### Data model

The `submissions` row, from migration
`20250715101144-….sql` and the columns the two edge functions read and
write.  SQL `NULL` for the array columns is identified with the empty
list: every use in the source (`extracted_kpis && extracted_kpis.length > 0`,
`extracted_kpis?.length || 0`, `ai_quotes || []`) treats the two
identically. -/

/-- The row's `video_files` JSONB value as written by `VideoUpload.tsx`
(`\x7b path, name, question_index, size \x7d`); the pipeline reads only
`path` and `name`, each of which it checks for truthiness. -/
structure VideoFile where
  path : Option String
  name : Option String
  deriving DecidableEq, Repr

/-- A `submissions` row. -/
structure Row where
  video_files : Option VideoFile
  docx_file : Option String
  notes : Option String
  transcript : Option String
  key_points : List String
  extracted_kpis : List String
  sentiment : Option String
  ai_quotes : List String
  status : String
  processing_error : Option String
  deriving DecidableEq, Repr

/-- The object shape the pipeline expects from `JSON.parse` on the
cleaned analysis content.  Every claim concerns responses that supply all
four fields, so they are modelled as always present. -/
structure AnalysisResult where
  key_points : List String
  extracted_kpis : List String
  sentiment : String
  ai_quotes : List String
  deriving DecidableEq, Repr

/-- An `update(...)` payload sent to the `submissions` table: `some`/`true`
fields are written, `none`/`false` fields are absent from the payload. -/
structure RowUpdate where
  transcript : Option String
  key_points : Option (List String)
  extracted_kpis : Option (List String)
  sentiment : Option String
  ai_quotes : Option (List String)
  status : Option String
  processing_error : Option String
  updated_at : Bool
  deriving DecidableEq, Repr

/-- The payload that writes nothing. -/
def emptyUpdate : RowUpdate :=
  { transcript := none, key_points := none, extracted_kpis := none,
    sentiment := none, ai_quotes := none, status := none,
    processing_error := none, updated_at := false }

/-- Apply an update payload to a row (the database's semantics of
`update`).  `updated_at` is a timestamp and not tracked on `Row`. -/
def applyUpdate (row : Row) (u : RowUpdate) : Row :=
  { row with
    transcript := match u.transcript with | some t => some t | none => row.transcript
    key_points := u.key_points.getD row.key_points
    extracted_kpis := u.extracted_kpis.getD row.extracted_kpis
    sentiment := match u.sentiment with | some s => some s | none => row.sentiment
    ai_quotes := u.ai_quotes.getD row.ai_quotes
    status := u.status.getD row.status
    processing_error :=
      match u.processing_error with
      | some m => some m
      | none => row.processing_error }

/-- A fresh row as inserted by `VideoUpload.tsx` (`status: 'processing'`,
matching the column default of the migration). -/
def newSubmission (vf : VideoFile) (docx : Option String) (notes : Option String) : Row :=
  { video_files := some vf, docx_file := docx, notes := notes,
    transcript := none, key_points := [], extracted_kpis := [],
    sentiment := none, ai_quotes := [], status := "processing",
    processing_error := none }

/-! ### Oracles for the outbound calls of `process-submission` -/

/-- Outcome of the video `storage.download` call: `err m` models a
non-null `downloadError` whose `message` is `m` (`none` when absent). -/
inductive VideoDl
  | err (msg : Option String)
  | ok
  deriving DecidableEq, Repr

/-- Outcome of the Whisper call wrapped in `withTimeout(…, 600000)`:
the 10-minute timeout rejection, a rejected `fetch`, a non-2xx response
(status and error body), or a 2xx response whose JSON may or may not
carry a `text` field. -/
inductive TransOutcome
  | timeout
  | fetchErr (msg : String)
  | httpErr (st : Nat) (body : String)
  | ok (text : Option String)
  deriving DecidableEq, Repr

/-- Outcome of `extractDocxText`'s body: the function either produces a
text (all three internal strategies collapse into `ok`) or some step
throws with message `m`, which its own `catch` turns into a placeholder. -/
inductive DocxExtract
  | ok (text : String)
  | threw (msg : String)
  deriving DecidableEq, Repr

/-- Outcome of the DOCX `storage.download` call inside the pipeline's
document stage: the download threw, returned a non-null error, or
succeeded with a blob of `size` bytes that extraction then consumes. -/
inductive DocxDl
  | threw (msg : String)
  | err (msg : Option String)
  | ok (size : Nat) (ex : DocxExtract)
  deriving DecidableEq, Repr

/-- Outcome of the GPT-4o analysis call wrapped in
`withTimeout(…, 300000)`: the 5-minute timeout rejection, a rejected
`fetch`, a non-2xx response (its body text), or a 2xx response whose
`choices[0]?.message?.content` may be absent. -/
inductive AnalysisOutcome
  | timeout
  | fetchErr (msg : String)
  | httpErr (body : String)
  | ok (content : Option String)
  deriving DecidableEq, Repr

/-- Environment of one `process-submission` invocation.  `reqOk` is true
when the request body parsed and carried a `submissionId` (and the
OpenAI key is configured); `row?` is the fetched row (`none` covers both
a select error and a missing row); `parse` is the `JSON.parse` oracle
applied to the cleaned analysis content; `updateErr` is the error of the
final `update` call, if any.  Database writes other than the final
update have their errors ignored by the source and are assumed applied. -/
structure Env where
  reqOk : Bool
  row? : Option Row
  videoDl : VideoDl
  trans : TransOutcome
  docxDl : DocxDl
  analysis : AnalysisOutcome
  parse : String → Option AnalysisResult
  updateErr : Option String
  deleteOk : Bool

/-- HTTP response of the edge function: a 200 success payload
(`message, docxProcessed, kpisExtracted, videoProcessed,
transcriptLength, docxContentLength`) or an error body with a status. -/
inductive Resp
  | success (msg : String) (docxProcessed : Bool) (kpisExtracted : Nat)
      (videoProcessed : Bool) (transcriptLength : Nat) (docxContentLength : Nat)
  | failure (st : Nat) (errMsg : String)
  deriving DecidableEq, Repr

/-- The HTTP status code of a response (success bodies are returned with
the default 200). -/
def Resp.statusCode : Resp → Nat
  | .success .. => 200
  | .failure st _ => st

/-- Observable behaviour of one invocation: which outbound stages were
reached, the `docxText` handed to the analysis prompt (when the analysis
call was made), the row updates applied to the database in order, and
the HTTP response. -/
structure Trace where
  downloadAttempted : Bool
  transcribeAttempted : Bool
  analysisAttempted : Bool
  analysisDocx : Option String
  updates : List RowUpdate
  response : Resp
  deriving DecidableEq, Repr

/-! ### `process-submission` (`supabase/functions/process-submission/index.ts`) -/

/-- The top-level `catch` (lines 508-539).  It attempts to recover the
submission id with `await req.json().catch(() => (\x7b\x7d))`, but the
request body was already consumed by the first `req.json()` at line 166,
so the re-read rejects and yields the empty object: `submissionId` is
`undefined`, the `failed`-status update is skipped, and only the 500
response is returned. -/
def fatal (dl tr an : Bool) (adocx : Option String) (msg : String) : Trace :=
  { downloadAttempted := dl, transcribeAttempted := tr, analysisAttempted := an,
    analysisDocx := adocx, updates := [], response := .failure 500 msg }

/-- The `catch` of the video-processing `try` (lines 250-274): an error
whose message contains `'timed out'` writes the dedicated failure row and
returns 408; any other error is rethrown as
`Video processing failed: …` and reaches the top-level handler. -/
def videoCatch (dl tr : Bool) (msg : String) : Trace :=
  if containsS msg "timed out" then
    { downloadAttempted := dl, transcribeAttempted := tr, analysisAttempted := false,
      analysisDocx := none,
      updates := [{ emptyUpdate with
        status := some "failed",
        processing_error :=
          some "Processing timed out after 10 minutes. Please try with a shorter video.",
        updated_at := true }],
      response := .failure 408 "Processing timed out after 10 minutes" }
  else
    fatal dl tr false none ("Video processing failed: " ++ msg)

/-- The function `extractDocxText` (lines 55-158): the body never rethrows — every
internal strategy either yields a text or its `catch` (lines 154-157)
turns the exception into a placeholder string. -/
def extractDocxText : DocxExtract → String
  | .ok t => t
  | .threw m =>
      "DOCX processing error: " ++ m ++
      ". Please ensure the DOCX contains readable text and is not corrupted."

/-- The DOCX stage (lines 276-314), returning
(`docxText`, `docxProcessingSuccess`).  Failures are converted into
placeholder strings and never abort. -/
def docxStage (env : Env) (row : Row) : String × Bool :=
  match row.docx_file with
  | none => ("", false)
  | some _ =>
    match env.docxDl with
    | .threw m => ("DOCX processing failed: " ++ m, false)
    | .err m => ("DOCX download failed: " ++ m.getD "Unknown error", false)
    | .ok size ex =>
      if size = 0 then ("DOCX file appears to be empty or corrupted.", false)
      else
        let t := extractDocxText ex
        if 100 < t.length && !(containsS t "processing error") then (t, true)
        else (t, false)

/-- The default `analysisResult` (lines 396-401), kept when the analysis
call returns a non-2xx status or a response without content. -/
def analysisDefault : AnalysisResult :=
  { key_points := ["Content processed successfully"], extracted_kpis := [],
    sentiment := "neutral", ai_quotes := [] }

/-- The final update and success response (lines 441-506).  The video
blob deletion (lines 473-487) has its errors ignored and no observable
effect on the trace. -/
def finish (env : Env) (fullTranscript docxText : String) (docxOk : Bool)
    (r : AnalysisResult) : Trace :=
  match env.updateErr with
  | some m => fatal true true true (some docxText) m
  | none =>
    let kpiCount := r.extracted_kpis.length
    let msg :=
      if docxOk then
        "Submission processed successfully with enhanced DOCX analysis (" ++
          toString kpiCount ++ " KPIs extracted)"
      else
        "Submission processed with video analysis and limited DOCX processing (" ++
          toString kpiCount ++ " KPIs extracted)"
    { downloadAttempted := true, transcribeAttempted := true, analysisAttempted := true,
      analysisDocx := some docxText,
      updates := [{ transcript := some fullTranscript,
                    key_points := some r.key_points,
                    extracted_kpis := some r.extracted_kpis,
                    sentiment := some r.sentiment,
                    ai_quotes := some r.ai_quotes,
                    status := some "completed",
                    processing_error := none,
                    updated_at := true }],
      response := .success msg docxOk kpiCount (!(fullTranscript == ""))
        fullTranscript.length docxText.length }

/-- The DOCX stage, prompt construction, analysis call and response
handling (lines 276-439).  On a 2xx response with content, the content is
cleaned and `JSON.parse`d; when the parse throws, the `catch` block at
lines 434-438 dereferences `content` — a `const` scoped to the `try`
block — so it raises `ReferenceError: content is not defined`, which
propagates to the top-level handler. -/
def afterVideo (env : Env) (row : Row) (fullTranscript : String) : Trace :=
  let d := docxStage env row
  match env.analysis with
  | .timeout => fatal true true true (some d.1) "Operation timed out after 300000ms"
  | .fetchErr m => fatal true true true (some d.1) m
  | .httpErr _ => finish env fullTranscript d.1 d.2 analysisDefault
  | .ok none => finish env fullTranscript d.1 d.2 analysisDefault
  | .ok (some content) =>
    match env.parse (cleanJsonResponseS content) with
    | some r => finish env fullTranscript d.1 d.2 r
    | none => fatal true true true (some d.1) "ReferenceError: content is not defined"

/-- The video-processing `try` (lines 204-274): download the blob, then
call Whisper under the 10-minute timeout; `fullTranscript` is the
response's `text` or `''`. -/
def processVideo (env : Env) (row : Row) : Trace :=
  match env.videoDl with
  | .err m => videoCatch true false ("Failed to download video file: " ++ m.getD "Unknown error")
  | .ok =>
    match env.trans with
    | .timeout => videoCatch true true "Operation timed out after 600000ms"
    | .fetchErr m => videoCatch true true m
    | .httpErr st body =>
        videoCatch true true ("Whisper API error (" ++ toString st ++ "): " ++ body)
    | .ok t? => afterVideo env row (t?.getD "")

/-- ProcessSubmission: the whole `serve` handler (lines 160-540) of
`process-submission/index.ts` for a non-OPTIONS request, as a function of
the oracle environment. -/
def processSubmission (env : Env) : Trace :=
  if !env.reqOk then fatal false false false none "Submission ID is required"
  else
    match env.row? with
    | none => fatal false false false none "Submission not found"
    | some row =>
      match row.video_files with
      | none => fatal false false false none "Invalid video file structure"
      | some vf =>
        match vf.path with
        | none => fatal false false false none "Invalid video file structure"
        | some p =>
          if p = "" then fatal false false false none "Invalid video file structure"
          else processVideo env row

/-! ### `reprocess-transcripts` (`supabase/functions/reprocess-transcripts/index.ts`)

The job iterates completed rows with a transcript; the embedding models
the body of the per-row loop (lines 75-250) for one row. -/

/-- Outcome of the per-row GPT-4o analysis call (a bare `fetch`, no
timeout wrapper in this function). -/
inductive RAnalysis
  | fetchErr (msg : String)
  | httpErr (body : String)
  | ok (content : Option String)
  deriving DecidableEq, Repr

/-- Environment of one reprocessing loop iteration. -/
structure REnv where
  analysis : RAnalysis
  parse : String → Option AnalysisResult
  updateErr : Option String

/-- Result of one loop iteration: skipped for an insufficient
transcript (`continue` at line 92), kept existing data without touching
the row (`continue` at lines 175/209), aborted by the per-row `catch`
(lines 246-249), or an `update` issued with payload `u` (whose error, if
any, is logged and does not stop the loop). -/
inductive RowResult
  | skippedTranscript
  | keptExisting
  | caught (msg : String)
  | updated (u : RowUpdate) (uerr : Option String)
  deriving DecidableEq, Repr

/-- The `updateData` payload of the reprocessing job (lines 215-221):
the four analysis fields plus `updated_at`, nothing else. -/
def reprocessPayload (r : AnalysisResult) : RowUpdate :=
  { transcript := none, key_points := some r.key_points,
    extracted_kpis := some r.extracted_kpis, sentiment := some r.sentiment,
    ai_quotes := some r.ai_quotes, status := none, processing_error := none,
    updated_at := true }

/-- One iteration of the reprocessing loop (lines 75-250) on `row`.
`transcript` is modelled by its text (`JSON.stringify` of a JSONB
transcript is identified with that string); `hasGoodKPIs` is the check of
line 80; the overwrite condition of line 191 adopts the new result iff
`!hasGoodKPIs \|\| newM > oldN`. -/
def reprocessRow (renv : REnv) (row : Row) : RowResult :=
  let hasGoodKPIs : Bool := 0 < row.extracted_kpis.length
  let transcriptText := row.transcript.getD ""
  if transcriptText.length < 50 then .skippedTranscript
  else
    let dflt : AnalysisResult :=
      { key_points := if hasGoodKPIs then row.key_points
          else ["Content reprocessed successfully"],
        extracted_kpis := if hasGoodKPIs then row.extracted_kpis else [],
        sentiment := row.sentiment.getD "neutral",
        ai_quotes := row.ai_quotes }
    match renv.analysis with
    | .fetchErr m => .caught m
    | .httpErr _ =>
        if hasGoodKPIs then .keptExisting
        else .updated (reprocessPayload dflt) renv.updateErr
    | .ok none => .updated (reprocessPayload dflt) renv.updateErr
    | .ok (some content) =>
      match renv.parse (cleanJsonResponseS content) with
      | some newR =>
          if !hasGoodKPIs || row.extracted_kpis.length < newR.extracted_kpis.length then
            .updated (reprocessPayload newR) renv.updateErr
          else .updated (reprocessPayload dflt) renv.updateErr
      | none =>
          if hasGoodKPIs then .keptExisting
          else .updated (reprocessPayload dflt) renv.updateErr

/-- The sequence of `status` values an invocation writes to the row. -/
def statusWrites (tr : Trace) : List String := tr.updates.filterMap (fun u => u.status)

/-! ### Concrete inputs used by counterexamples and witnesses -/

/-- A freshly created submission row with a valid video reference. -/
def rowBase : Row :=
  { video_files := some { path := some "u1/video.webm", name := some "video.webm" },
    docx_file := none, notes := none, transcript := none,
    key_points := [], extracted_kpis := [], sentiment := none, ai_quotes := [],
    status := "processing", processing_error := none }

/-- A parsed analysis result with two KPIs. -/
def resultTwoKpis : AnalysisResult :=
  { key_points := ["point"], extracted_kpis := ["X: 1", "Y: 2"],
    sentiment := "positive", ai_quotes := ["quote"] }

/-- An environment in which every stage succeeds. -/
def envAllOk : Env :=
  { reqOk := true, row? := some rowBase, videoDl := .ok,
    trans := .ok (some "hello transcript"), docxDl := .ok 1 (.ok "irrelevant"),
    analysis := .ok (some "analysis content"),
    parse := fun _ => some resultTwoKpis, updateErr := none, deleteOk := true }

/-- C2: a completed row holding two KPIs and a long transcript. -/
def rowC2 : Row :=
  { rowBase with
    status := "completed",
    transcript := some "0123456789012345678901234567890123456789012345678901234",
    key_points := ["old point"], extracted_kpis := ["Old A: 1", "Old B: 2"],
    sentiment := some "neutral", ai_quotes := [] }

/-- C2: the new analysis result (`M = 2` KPIs, differing from the stored
ones). -/
def newResultC2 : AnalysisResult :=
  { key_points := ["new point"], extracted_kpis := ["New A: 9", "New B: 8"],
    sentiment := "positive", ai_quotes := ["new quote"] }

/-- C2: a reprocessing environment whose analysis parses to a new
two-KPI result (`M = N = 2`). -/
def renvC2 : REnv :=
  { analysis := .ok (some "new content"),
    parse := fun _ => some newResultC2,
    updateErr := none }

/-- C3: an environment in which every stage succeeds except that the
analysis content is not valid JSON (`JSON.parse` fails on the cleaned
content). -/
def envC3 : Env :=
  { envAllOk with
    analysis := .ok (some "this is not json"),
    parse := fun _ => none }

/-- C5: an environment whose fetched row has a null `video_files`. -/
def envC5 : Env :=
  { envAllOk with
    row? := some { rowBase with video_files := none } }

/-- C8: an environment whose fetched row has a video reference without a
path, driving the invocation into the generic fatal path. -/
def envC8 : Env :=
  { envAllOk with
    row? := some
      { rowBase with
        video_files := some { path := none, name := some "video.webm" } } }

/-! ## Theorems -/

/-! ### Correctness of the character-index searches -/

theorem firstIdxOf_spec (a : Char) (l : List Char) (i : Nat) :
    firstIdxOf a l = some i ↔ l[i]? = some a ∧ ∀ k, k < i → l[k]? ≠ some a := by
  induction l generalizing i with
  | nil => simp [firstIdxOf]
  | cons c t ih =>
    simp only [firstIdxOf]
    by_cases hc : c = a
    · subst hc
      simp only [if_pos rfl]
      constructor
      · intro h
        obtain rfl : (0 : Nat) = i := by simpa using h
        exact ⟨by simp, by omega⟩
      · rintro ⟨h1, h2⟩
        rcases i with _ | n
        · rfl
        · exact absurd (by simp : (c :: t)[0]? = some c) (h2 0 (Nat.succ_pos n))
    · simp only [if_neg hc]
      rcases i with _ | n
      · constructor
        · intro h
          rcases Option.map_eq_some'.mp h with ⟨m, _, hm⟩
          omega
        · rintro ⟨h1, -⟩
          simp only [List.getElem?_cons_zero, Option.some.injEq] at h1
          exact absurd h1 hc
      · constructor
        · intro h
          rcases Option.map_eq_some'.mp h with ⟨m, hm, hmn⟩
          obtain rfl : m = n := by omega
          rcases (ih m).mp hm with ⟨h1, h2⟩
          refine ⟨by simpa using h1, ?_⟩
          intro k hk
          rcases k with _ | k'
          · simp only [ne_eq, List.getElem?_cons_zero, Option.some.injEq]
            exact hc
          · simpa using h2 k' (by omega)
        · rintro ⟨h1, h2⟩
          have hm : firstIdxOf a t = some n := by
            refine (ih n).mpr ⟨by simpa using h1, ?_⟩
            intro k hk
            simpa using h2 (k + 1) (by omega)
          simp [hm]

theorem lastIdxOf_eq_none (a : Char) (l : List Char) :
    lastIdxOf a l = none ↔ ∀ k : Nat, l[k]? ≠ some a := by
  induction l with
  | nil => simp [lastIdxOf]
  | cons c t ih =>
    by_cases hca : c = a
    · constructor
      · intro h
        rcases ht : lastIdxOf a t with _ | j
        · simp [lastIdxOf, ht, hca] at h
        · simp [lastIdxOf, ht] at h
      · intro h
        exact absurd (by simp [hca] : (c :: t)[0]? = some a) (h 0)
    · constructor
      · intro h k
        rcases ht : lastIdxOf a t with _ | j
        · rcases k with _ | k'
          · simp [hca]
          · simpa using ih.mp ht k'
        · simp [lastIdxOf, ht] at h
      · intro h
        have ht : lastIdxOf a t = none := ih.mpr fun k => by simpa using h (k + 1)
        simp [lastIdxOf, ht, hca]

theorem lastIdxOf_spec (a : Char) (l : List Char) (j : Nat) :
    lastIdxOf a l = some j ↔ l[j]? = some a ∧ ∀ k, j < k → l[k]? ≠ some a := by
  induction l generalizing j with
  | nil => simp [lastIdxOf]
  | cons c t ih =>
    simp only [lastIdxOf]
    rcases ht : lastIdxOf a t with _ | j'
    · have hnone := (lastIdxOf_eq_none a t).mp ht
      by_cases hca : c = a
      · subst hca
        simp only [if_pos rfl]
        constructor
        · intro h
          obtain rfl : (0 : Nat) = j := by simpa using h
          refine ⟨by simp, ?_⟩
          intro k hk
          rcases k with _ | k'
          · omega
          · simpa using hnone k'
        · rintro ⟨h1, -⟩
          rcases j with _ | m
          · rfl
          · exact absurd (by simpa using h1) (hnone m)
      · simp only [if_neg hca]
        constructor
        · intro h
          cases h
        · rintro ⟨h1, -⟩
          rcases j with _ | m
          · simp only [List.getElem?_cons_zero, Option.some.injEq] at h1
            exact absurd h1 hca
          · exact absurd (by simpa using h1) (hnone m)
    · rcases (ih j').mp ht with ⟨ht1, ht2⟩
      constructor
      · intro h
        obtain rfl : j' + 1 = j := by simpa using h
        refine ⟨by simpa using ht1, ?_⟩
        intro k hk
        rcases k with _ | k'
        · omega
        · simpa using ht2 k' (by omega)
      · rintro ⟨h1, h2⟩
        rcases j with _ | m
        · exact absurd (by simpa using ht1) (h2 (j' + 1) (Nat.succ_pos j'))
        · have hm : lastIdxOf a t = some m := by
            refine (ih m).mpr ⟨by simpa using h1, ?_⟩
            intro k hk
            simpa using h2 (k + 1) (by omega)
          rw [ht] at hm
          simpa using hm

/-! ### Trim and fence-check lemmas -/

theorem dropWhile_eq_self_of_head (p : Char → Bool) (l : List Char) (a : Char)
    (h : l[0]? = some a) (hp : p a = false) : l.dropWhile p = l := by
  cases l with
  | nil => rfl
  | cons c t =>
    simp only [List.getElem?_cons_zero, Option.some.injEq] at h
    subst h
    simp [List.dropWhile_cons, hp]

theorem head_not_sat_of_dropWhile_eq (p : Char → Bool) (l : List Char)
    (h : l.dropWhile p = l) (a : Char) (ha : l[0]? = some a) : p a = false := by
  cases l with
  | nil => simp at ha
  | cons c t =>
    simp only [List.getElem?_cons_zero, Option.some.injEq] at ha
    subst ha
    by_contra hp
    rw [Bool.not_eq_false] at hp
    rw [List.dropWhile_cons, if_pos hp] at h
    have h1 := congrArg List.length h
    have h2 := (List.dropWhile_suffix (l := t) p).sublist.length_le
    simp at h1
    omega

theorem jsTrimL_idem (l : List Char) : jsTrimL (jsTrimL l) = jsTrimL l :=
  List.dropWhile_idempotent jsWS l

theorem jsTrimR_idem (l : List Char) : jsTrimR (jsTrimR l) = jsTrimR l := by
  unfold jsTrimR
  rw [List.reverse_reverse, List.dropWhile_idempotent]

theorem jsTrimR_isPre (l : List Char) : jsTrimR l <+: l := by
  have hs : l.reverse.dropWhile jsWS <:+ l.reverse := List.dropWhile_suffix jsWS
  have := List.reverse_prefix.mpr hs
  rwa [List.reverse_reverse] at this

theorem jsTrimL_jsTrimR (l : List Char) (h : jsTrimL l = l) :
    jsTrimL (jsTrimR l) = jsTrimR l := by
  cases hz : jsTrimR l with
  | nil => rfl
  | cons c t =>
    apply dropWhile_eq_self_of_head jsWS _ c
    · simp
    · obtain ⟨suf, hsuf⟩ := jsTrimR_isPre l
      rw [hz] at hsuf
      have hl0 : l[0]? = some c := by
        rw [← hsuf]
        simp
      exact head_not_sat_of_dropWhile_eq jsWS l h c hl0

theorem jsTrim_idem (l : List Char) : jsTrim (jsTrim l) = jsTrim l := by
  unfold jsTrim
  rw [jsTrimL_jsTrimR _ (jsTrimL_idem l), jsTrimR_idem]

theorem jsTrim_stripFences (s : List Char) : jsTrim (stripFences s) = stripFences s := by
  unfold stripFences
  exact jsTrim_idem _

theorem hasPre_mono (l p q : List Char) (h : hasPre l (p ++ q) = true) :
    hasPre l p = true := by
  induction p generalizing l with
  | nil => cases l <;> rfl
  | cons a ps ih =>
    cases l with
    | nil => simp [hasPre] at h
    | cons c t =>
      simp only [List.cons_append, hasPre, Bool.and_eq_true] at h ⊢
      exact ⟨h.1, ih t h.2⟩

theorem hasPre_false_of_head_ne (l pat : List Char) (a p : Char)
    (hl : l[0]? = some a) (hp : pat[0]? = some p) (hne : a ≠ p) :
    hasPre l pat = false := by
  cases l with
  | nil => simp at hl
  | cons c t =>
    cases pat with
    | nil => simp at hp
    | cons c' t' =>
      simp only [List.getElem?_cons_zero, Option.some.injEq] at hl hp
      subst hl
      subst hp
      simp [hasPre, hne]

theorem stripFences_eq_self (c : List Char) (htrim : jsTrim c = c)
    (h3 : hasPre c "```".data = false) (hs : hasSuf c "```".data = false) :
    stripFences c = c := by
  have hj : hasPre c "```json".data = false := by
    cases h : hasPre c "```json".data
    · rfl
    · have he : "```json".data = "```".data ++ "json".data := by decide
      rw [he] at h
      rw [hasPre_mono c "```".data "json".data h] at h3
      cases h3
  unfold stripFences
  simp [htrim, hj, h3, hs]

/-! ### Shape of `cleanJsonResponse` results -/

theorem cleanJsonResponse_def (s : List Char) :
    cleanJsonResponse s =
      match firstIdxOf '\x7b' (stripFences s), lastIdxOf '\x7d' (stripFences s) with
      | some i, some j =>
          if i < j then ((stripFences s).take (j + 1)).drop i else stripFences s
      | none, _ => stripFences s
      | some _, none => stripFences s := rfl

theorem extract_slice_facts (t : List Char) (i j : Nat)
    (hi : t[i]? = some '\x7b') (hj : t[j]? = some '\x7d') (hij : i < j) :
    ((t.take (j + 1)).drop i)[0]? = some '\x7b' ∧
    ((t.take (j + 1)).drop i).length = j + 1 - i ∧
    ((t.take (j + 1)).drop i)[j - i]? = some '\x7d' := by
  have hjlen : j < t.length := (List.getElem?_eq_some.mp hj).1
  have hlen : (t.take (j + 1)).length = j + 1 := by
    rw [List.length_take]
    omega
  refine ⟨?_, ?_, ?_⟩
  · rw [List.getElem?_drop, Nat.add_zero, List.getElem?_take_of_lt (by omega)]
    exact hi
  · rw [List.length_drop, hlen]
  · rw [List.getElem?_drop]
    have hadd : i + (j - i) = j := by omega
    rw [hadd, List.getElem?_take_of_lt (by omega)]
    exact hj

theorem cleanJsonResponse_fixed_of_braces (cs : List Char)
    (h0 : cs[0]? = some '\x7b') (hlen : 2 ≤ cs.length)
    (hl : cs[cs.length - 1]? = some '\x7d') :
    cleanJsonResponse cs = cs := by
  have hrev0 : cs.reverse[0]? = some '\x7d' := by
    rw [List.getElem?_reverse (by omega)]
    simpa using hl
  have htL : jsTrimL cs = cs := dropWhile_eq_self_of_head jsWS cs _ h0 (by decide)
  have htR : jsTrimR cs = cs := by
    unfold jsTrimR
    rw [dropWhile_eq_self_of_head jsWS cs.reverse _ hrev0 (by decide), List.reverse_reverse]
  have htrim : jsTrim cs = cs := by
    unfold jsTrim
    rw [htL, htR]
  have hp3 : hasPre cs "```".data = false :=
    hasPre_false_of_head_ne cs _ '\x7b' '\x60' h0 (by decide) (by decide)
  have hs3 : hasSuf cs "```".data = false := by
    unfold hasSuf
    exact hasPre_false_of_head_ne cs.reverse _ '\x7d' '\x60' hrev0 (by decide) (by decide)
  have hsf : stripFences cs = cs := stripFences_eq_self cs htrim hp3 hs3
  have hfi : firstIdxOf '\x7b' cs = some 0 :=
    (firstIdxOf_spec _ _ _).mpr ⟨h0, by omega⟩
  have hla : lastIdxOf '\x7d' cs = some (cs.length - 1) := by
    refine (lastIdxOf_spec _ _ _).mpr ⟨hl, ?_⟩
    intro k hk
    rw [List.getElem?_eq_none (by omega)]
    simp
  rw [cleanJsonResponse_def]
  simp only [hsf, hfi, hla]
  rw [if_pos (by omega : (0 : Nat) < cs.length - 1)]
  have hsucc : cs.length - 1 + 1 = cs.length := by omega
  rw [hsucc, List.take_length, List.drop_zero]

theorem cleanJsonResponse_cases (s : List Char) :
    (∃ i j, firstIdxOf '\x7b' (stripFences s) = some i ∧
        lastIdxOf '\x7d' (stripFences s) = some j ∧ i < j ∧
        cleanJsonResponse s = ((stripFences s).take (j + 1)).drop i) ∨
    (cleanJsonResponse s = stripFences s ∧
      ∀ i j, firstIdxOf '\x7b' (stripFences s) = some i →
        lastIdxOf '\x7d' (stripFences s) = some j → ¬ i < j) := by
  rw [cleanJsonResponse_def]
  rcases hf : firstIdxOf '\x7b' (stripFences s) with _ | i
  · right
    refine ⟨rfl, ?_⟩
    intro i j h1 h2
    simp at h1
  · rcases hl : lastIdxOf '\x7d' (stripFences s) with _ | j
    · right
      refine ⟨rfl, ?_⟩
      intro i' j' h1 h2
      simp at h2
    · by_cases hij : i < j
      · left
        exact ⟨i, j, rfl, rfl, hij, if_pos hij⟩
      · right
        refine ⟨if_neg hij, ?_⟩
        intro i' j' h1 h2
        obtain rfl : i = i' := by simpa using h1
        obtain rfl : j = j' := by simpa using h2
        exact hij

/-- C7: after trimming and fence stripping, if a `\x7b` occurs strictly
before the last `\x7d`, `cleanJsonResponse` returns exactly the substring
from the first `\x7b` through the last `\x7d` inclusive; on every other
input it returns the trimmed, fence-stripped string unchanged. -/
theorem cleanJsonResponse_brace_window (s : List Char) :
    (∀ i j : Nat, (stripFences s)[i]? = some '\x7b' →
        (∀ k, k < i → (stripFences s)[k]? ≠ some '\x7b') →
        (stripFences s)[j]? = some '\x7d' →
        (∀ k, k < (stripFences s).length → j < k → (stripFences s)[k]? ≠ some '\x7d') →
        i < j →
        cleanJsonResponse s = ((stripFences s).take (j + 1)).drop i) ∧
    ((¬ ∃ i j : Nat, i < j ∧ (stripFences s)[i]? = some '\x7b' ∧
        (stripFences s)[j]? = some '\x7d') →
      cleanJsonResponse s = stripFences s) := by
  constructor
  · intro i j hi hifirst hj hjlast hij
    have hf : firstIdxOf '\x7b' (stripFences s) = some i :=
      (firstIdxOf_spec _ _ _).mpr ⟨hi, hifirst⟩
    have hl : lastIdxOf '\x7d' (stripFences s) = some j := by
      refine (lastIdxOf_spec _ _ _).mpr ⟨hj, ?_⟩
      intro k hk
      by_cases hklen : k < (stripFences s).length
      · exact hjlast k hklen hk
      · rw [List.getElem?_eq_none (le_of_not_lt hklen)]
        simp
    rw [cleanJsonResponse_def, hf, hl]
    exact if_pos hij
  · intro hno
    rcases cleanJsonResponse_cases s with ⟨i, j, hf, hl, hij, -⟩ | ⟨h, -⟩
    · exfalso
      apply hno
      exact ⟨i, j, hij, ((firstIdxOf_spec _ _ _).mp hf).1,
        ((lastIdxOf_spec _ _ _).mp hl).1⟩
    · exact h

/-- C7 witness: on `x\x7bab\x7dy` the window from the first `\x7b` (index
1) through the last `\x7d` (index 4) is returned. -/
theorem cleanJsonResponse_brace_window_witness :
    cleanJsonResponse "x\x7bab\x7dy".data = "\x7bab\x7d".data :=
  ((cleanJsonResponse_brace_window "x\x7bab\x7dy".data).1 1 4
    (by decide) (by decide) (by decide) (by decide) (by decide)).trans (by decide)

/-- C10 counterexample: `cleanJsonResponse` is not idempotent.  On
`\x60\x60\x60 \x60\x60\x60rest` the first pass strips the leading fence
and the trailing one, leaving a string that again starts with a fence,
which a second pass strips further. -/
theorem cleanJsonResponse_not_idem :
    cleanJsonResponse (cleanJsonResponse "``` ```rest".data) ≠
      cleanJsonResponse "``` ```rest".data := by decide

/-- C10 amended: `cleanJsonResponse` is idempotent on every input whose
output neither starts nor ends with a backtick fence (in particular on
every output produced by the brace-extraction branch). -/
theorem cleanJsonResponse_idem (s : List Char)
    (h1 : hasPre (cleanJsonResponse s) "```".data = false)
    (h2 : hasSuf (cleanJsonResponse s) "```".data = false) :
    cleanJsonResponse (cleanJsonResponse s) = cleanJsonResponse s := by
  rcases cleanJsonResponse_cases s with ⟨i, j, hf, hl, hij, heq⟩ | ⟨heq, hno⟩
  · have hi := ((firstIdxOf_spec _ _ _).mp hf).1
    have hj := ((lastIdxOf_spec _ _ _).mp hl).1
    obtain ⟨e0, elen, eend⟩ := extract_slice_facts (stripFences s) i j hi hj hij
    rw [heq]
    apply cleanJsonResponse_fixed_of_braces
    · exact e0
    · omega
    · rw [elen]
      have hsub : j + 1 - i - 1 = j - i := by omega
      rw [hsub]
      exact eend
  · rw [heq] at h1 h2 ⊢
    have htrim : jsTrim (stripFences s) = stripFences s := jsTrim_stripFences s
    have hsf : stripFences (stripFences s) = stripFences s :=
      stripFences_eq_self _ htrim h1 h2
    rw [cleanJsonResponse_def]
    simp only [hsf]
    rcases hf : firstIdxOf '\x7b' (stripFences s) with _ | i
    · rfl
    · rcases hl : lastIdxOf '\x7d' (stripFences s) with _ | j
      · rfl
      · exact if_neg (hno i j hf hl)

/-- C10 witness: idempotence at a fence-free input. -/
theorem cleanJsonResponse_idem_witness :
    cleanJsonResponse (cleanJsonResponse "  abc  ".data) =
      cleanJsonResponse "  abc  ".data :=
  cleanJsonResponse_idem "  abc  ".data (by decide) (by decide)

/-! ### Shape of `processSubmission` results -/

theorem processSubmission_shape (env : Env) :
    (∃ d t a ad msg, processSubmission env = fatal d t a ad msg) ∨
    (∃ d t msg, processSubmission env = videoCatch d t msg) ∨
    (∃ ft dt dok r, processSubmission env = finish env ft dt dok r) := by
  simp only [processSubmission, processVideo, afterVideo]
  repeat' split
  all_goals
    first
      | exact Or.inl ⟨_, _, _, _, _, rfl⟩
      | exact Or.inr (Or.inl ⟨_, _, _, rfl⟩)
      | exact Or.inr (Or.inr ⟨_, _, _, _, rfl⟩)

theorem fatal_failure_status (d t a : Bool) (ad : Option String) (msg : String)
    (st : Nat) (m : String) (h : (fatal d t a ad msg).response = .failure st m) :
    st = 500 := by
  have hc := congrArg Resp.statusCode h
  simpa [fatal, Resp.statusCode] using hc.symm

theorem videoCatch_failure_status (d t : Bool) (msg : String)
    (st : Nat) (m : String) (h : (videoCatch d t msg).response = .failure st m) :
    st = 408 ∨ st = 500 := by
  unfold videoCatch at h
  by_cases hc : containsS msg "timed out"
  · rw [if_pos hc] at h
    left
    have hcc := congrArg Resp.statusCode h
    simpa [Resp.statusCode] using hcc.symm
  · rw [if_neg hc] at h
    exact Or.inr (fatal_failure_status _ _ _ _ _ _ _ h)

theorem finish_failure_status (env : Env) (ft dt : String) (dok : Bool)
    (r : AnalysisResult) (st : Nat) (m : String)
    (h : (finish env ft dt dok r).response = .failure st m) : st = 500 := by
  unfold finish at h
  rcases hu : env.updateErr with _ | um
  · rw [hu] at h
    simp at h
  · rw [hu] at h
    exact fatal_failure_status _ _ _ _ _ _ _ h

theorem processSubmission_failure_status (env : Env) (st : Nat) (m : String)
    (h : (processSubmission env).response = .failure st m) : st = 408 ∨ st = 500 := by
  rcases processSubmission_shape env with ⟨d, t, a, ad, msg, he⟩ | ⟨d, t, msg, he⟩ |
    ⟨ft, dt, dok, r, he⟩
  · rw [he] at h
    exact Or.inr (fatal_failure_status _ _ _ _ _ _ _ h)
  · rw [he] at h
    exact videoCatch_failure_status _ _ _ _ _ h
  · rw [he] at h
    exact Or.inr (finish_failure_status _ _ _ _ _ _ _ h)

/-! ### Claim theorems about `process-submission` -/

/-- C1: when the row exists with a non-null video path and the download,
transcription, analysis (with parseable content) and final update all
succeed, the invocation writes exactly one row update — setting
`status = completed`, the transcript from the transcription response, and
the four analysis fields from the parsed analysis response — and returns
a 200 success payload. -/
theorem processSubmission_success_path (env : Env) (row : Row) (vf : VideoFile)
    (p : String) (t? : Option String) (content : String) (r : AnalysisResult)
    (hreq : env.reqOk = true)
    (hrow : env.row? = some row)
    (hvf : row.video_files = some vf)
    (hpath : vf.path = some p) (hp : p ≠ "")
    (hdl : env.videoDl = .ok)
    (htr : env.trans = .ok t?)
    (han : env.analysis = .ok (some content))
    (hparse : env.parse (cleanJsonResponseS content) = some r)
    (hupd : env.updateErr = none) :
    (processSubmission env).updates =
      [{ transcript := some (t?.getD ""), key_points := some r.key_points,
         extracted_kpis := some r.extracted_kpis, sentiment := some r.sentiment,
         ai_quotes := some r.ai_quotes, status := some "completed",
         processing_error := none, updated_at := true }] ∧
    ∃ msg docxOk docxLen, (processSubmission env).response =
      .success msg docxOk r.extracted_kpis.length (!((t?.getD "") == ""))
        (t?.getD "").length docxLen := by
  have hstep : processSubmission env =
      finish env (t?.getD "") (docxStage env row).1 (docxStage env row).2 r := by
    simp [processSubmission, processVideo, afterVideo, hreq, hrow, hvf, hpath, hp,
      hdl, htr, han, hparse]
  rw [hstep]
  unfold finish
  rw [hupd]
  exact ⟨rfl, _, _, _, rfl⟩

/-- C1 witness: the success path evaluated on `envAllOk`. -/
theorem processSubmission_success_path_witness :
    (processSubmission envAllOk).updates =
      [{ transcript := some "hello transcript", key_points := some ["point"],
         extracted_kpis := some ["X: 1", "Y: 2"], sentiment := some "positive",
         ai_quotes := some ["quote"], status := some "completed",
         processing_error := none, updated_at := true }] :=
  ((processSubmission_success_path envAllOk rowBase
    { path := some "u1/video.webm", name := some "video.webm" }
    "u1/video.webm" (some "hello transcript") "analysis content" resultTwoKpis
    rfl rfl rfl rfl (by decide) rfl rfl rfl rfl rfl).1).trans rfl

/-- C3 (code bug): when the analysis call returns 2xx content on which
`JSON.parse` fails, the parse-error catch block dereferences the
try-scoped `content` binding, so the invocation aborts with a 500
response, writes no row update, and never reaches `completed` — contrary
to the claim's fall-back-and-complete behaviour. -/
theorem processSubmission_parse_failure_aborts :
    (processSubmission envC3).response =
      .failure 500 "ReferenceError: content is not defined" ∧
    (processSubmission envC3).updates = [] ∧
    (processSubmission envC3).analysisAttempted = true := ⟨rfl, rfl, rfl⟩

/-- C4: a transcription timeout writes the dedicated timed-out failure to
the row and returns 408, while every failure response of any invocation
carries status 408 or 500 — so every other fatal failure's 500 differs
from the timeout's 408. -/
theorem processSubmission_timeout_408 (env : Env) (row : Row) (vf : VideoFile)
    (p : String)
    (hreq : env.reqOk = true)
    (hrow : env.row? = some row)
    (hvf : row.video_files = some vf)
    (hpath : vf.path = some p) (hp : p ≠ "")
    (hdl : env.videoDl = .ok)
    (htr : env.trans = .timeout) :
    (processSubmission env).updates =
      [{ emptyUpdate with
          status := some "failed",
          processing_error :=
            some "Processing timed out after 10 minutes. Please try with a shorter video.",
          updated_at := true }] ∧
    (processSubmission env).response =
      .failure 408 "Processing timed out after 10 minutes" ∧
    (408 : Nat) ≠ 500 ∧
    ∀ (env2 : Env) (st : Nat) (m : String),
      (processSubmission env2).response = .failure st m → st = 408 ∨ st = 500 := by
  have hto : containsS "Operation timed out after 600000ms" "timed out" = true := by
    decide
  have hstep : processSubmission env =
      videoCatch true true "Operation timed out after 600000ms" := by
    simp [processSubmission, processVideo, hreq, hrow, hvf, hpath, hp, hdl, htr]
  rw [hstep]
  unfold videoCatch
  rw [if_pos hto]
  exact ⟨rfl, rfl, by decide, processSubmission_failure_status⟩

/-- C4 witness: the timeout path evaluated on a concrete environment. -/
theorem processSubmission_timeout_408_witness :
    (processSubmission { envAllOk with trans := .timeout }).response =
      .failure 408 "Processing timed out after 10 minutes" :=
  (processSubmission_timeout_408 { envAllOk with trans := .timeout } rowBase
    { path := some "u1/video.webm", name := some "video.webm" }
    "u1/video.webm" rfl rfl rfl rfl (by decide) rfl rfl).2.1

/-- C5 amended: when the fetched row's video reference is missing or has
no usable path, the invocation fails with the descriptive error before
any download or transcription attempt and returns the 500 error response;
however no `failed` status is written, because the top-level handler
cannot re-read the already-consumed request body to recover the
submission id. -/
theorem processSubmission_invalid_video (env : Env) (row : Row)
    (hreq : env.reqOk = true) (hrow : env.row? = some row)
    (hbad : row.video_files = none ∨
      ∃ vf, row.video_files = some vf ∧ (vf.path = none ∨ vf.path = some "")) :
    (processSubmission env).downloadAttempted = false ∧
    (processSubmission env).transcribeAttempted = false ∧
    (processSubmission env).updates = [] ∧
    (processSubmission env).response = .failure 500 "Invalid video file structure" := by
  have hstep : processSubmission env =
      fatal false false false none "Invalid video file structure" := by
    rcases hbad with hnone | ⟨vf, hvf, hpn | hpe⟩
    · simp [processSubmission, hreq, hrow, hnone]
    · simp [processSubmission, hreq, hrow, hvf, hpn]
    · simp [processSubmission, hreq, hrow, hvf, hpe]
  rw [hstep]
  exact ⟨rfl, rfl, rfl, rfl⟩

/-- C5 witness: the invalid-video fast failure at a concrete environment. -/
theorem processSubmission_invalid_video_witness :
    (processSubmission envC5).downloadAttempted = false ∧
    (processSubmission envC5).transcribeAttempted = false ∧
    (processSubmission envC5).updates = [] ∧
    (processSubmission envC5).response = .failure 500 "Invalid video file structure" :=
  processSubmission_invalid_video envC5 { rowBase with video_files := none }
    rfl rfl (Or.inl rfl)

/-- C5 counterexample: on a row with a null video reference the error
response is returned but the updates list is empty — the claimed
`failed`-status write to the row does not happen. -/
theorem processSubmission_invalid_video_no_write :
    (processSubmission envC5).updates = [] ∧
    (processSubmission envC5).response = .failure 500 "Invalid video file structure" :=
  ⟨rfl, rfl⟩

/-- C6: when a document reference is present but its download fails or
its extraction throws, the failure is converted to the corresponding
human-readable placeholder string which is handed to the analysis prompt,
the analysis stage is reached, and — the remaining stages succeeding —
the row still reaches `completed`. -/
theorem processSubmission_docx_failure_completes (env : Env) (row : Row)
    (vf : VideoFile) (p d : String) (t? : Option String) (content : String)
    (r : AnalysisResult)
    (hreq : env.reqOk = true)
    (hrow : env.row? = some row)
    (hvf : row.video_files = some vf)
    (hpath : vf.path = some p) (hp : p ≠ "")
    (hdl : env.videoDl = .ok)
    (htr : env.trans = .ok t?)
    (hdoc : row.docx_file = some d)
    (hfail : (∃ m, env.docxDl = .threw m) ∨ (∃ m, env.docxDl = .err m) ∨
      (∃ m sz, sz ≠ 0 ∧ env.docxDl = .ok sz (.threw m)))
    (han : env.analysis = .ok (some content))
    (hparse : env.parse (cleanJsonResponseS content) = some r)
    (hupd : env.updateErr = none) :
    (processSubmission env).analysisAttempted = true ∧
    (∃ u, (processSubmission env).updates = [u] ∧ u.status = some "completed") ∧
    (processSubmission env).response.statusCode = 200 ∧
    (∀ m, env.docxDl = .threw m →
      (processSubmission env).analysisDocx = some ("DOCX processing failed: " ++ m)) ∧
    (∀ m, env.docxDl = .err m →
      (processSubmission env).analysisDocx =
        some ("DOCX download failed: " ++ m.getD "Unknown error")) ∧
    (∀ m sz, sz ≠ 0 → env.docxDl = .ok sz (.threw m) →
      (processSubmission env).analysisDocx =
        some ("DOCX processing error: " ++ m ++
          ". Please ensure the DOCX contains readable text and is not corrupted.")) := by
  have hstep : processSubmission env =
      finish env (t?.getD "") (docxStage env row).1 (docxStage env row).2 r := by
    simp [processSubmission, processVideo, afterVideo, hreq, hrow, hvf, hpath, hp,
      hdl, htr, han, hparse]
  rw [hstep]
  unfold finish
  rw [hupd]
  refine ⟨rfl, ⟨_, rfl, rfl⟩, rfl, ?_, ?_, ?_⟩
  · intro m hm
    simp [docxStage, hdoc, hm]
  · intro m hm
    simp [docxStage, hdoc, hm]
  · intro m sz hsz hm
    simp [docxStage, hdoc, hm, hsz, extractDocxText]
    split <;> rfl

/-- C6 witness: a failing DOCX download still ends in `completed`. -/
theorem processSubmission_docx_failure_completes_witness :
    (processSubmission
      { envAllOk with
        row? := some { rowBase with docx_file := some "u1/doc.docx" },
        docxDl := .err (some "bucket unavailable") }).analysisDocx =
      some "DOCX download failed: bucket unavailable" :=
  ((processSubmission_docx_failure_completes
    { envAllOk with
      row? := some { rowBase with docx_file := some "u1/doc.docx" },
      docxDl := .err (some "bucket unavailable") }
    { rowBase with docx_file := some "u1/doc.docx" }
    { path := some "u1/video.webm", name := some "video.webm" }
    "u1/video.webm" "u1/doc.docx" (some "hello transcript") "analysis content"
    resultTwoKpis rfl rfl rfl rfl (by decide) rfl rfl rfl
    (Or.inr (Or.inl ⟨some "bucket unavailable", rfl⟩)) rfl rfl rfl).2.2.2.2.1
    (some "bucket unavailable") rfl)

/-! ### Claim theorems about `reprocess-transcripts` and the status
lifecycle -/

theorem reprocessRow_updated_shape (renv : REnv) (row : Row) (u : RowUpdate)
    (e : Option String) (h : reprocessRow renv row = .updated u e) :
    ∃ r, u = reprocessPayload r ∧ e = renv.updateErr := by
  simp only [reprocessRow] at h
  repeat' split at h
  all_goals
    first
      | (injection h with h1 h2; exact ⟨_, h1.symm, h2.symm⟩)
      | cases h

/-- C2 amended: for a processed row whose new analysis parses, the stored
KPI list becomes the new `M`-item list iff the row had no KPIs (`N = 0`)
or the new list is strictly longer (`M > N`); otherwise (in particular
when `M = N ≥ 1`) it remains unchanged. -/
theorem reprocess_kpi_overwrite (renv : REnv) (row : Row) (t content : String)
    (newR : AnalysisResult)
    (htr : row.transcript = some t) (hlen : 50 ≤ t.length)
    (han : renv.analysis = .ok (some content))
    (hparse : renv.parse (cleanJsonResponseS content) = some newR) :
    ∃ u, reprocessRow renv row = .updated u renv.updateErr ∧
      (applyUpdate row u).extracted_kpis =
        (if row.extracted_kpis.length = 0 ∨
            row.extracted_kpis.length < newR.extracted_kpis.length
          then newR.extracted_kpis else row.extracted_kpis) := by
  have hne : ¬ t.length < 50 := by omega
  by_cases hgood : 0 < row.extracted_kpis.length
  · by_cases hmore : row.extracted_kpis.length < newR.extracted_kpis.length
    · refine ⟨reprocessPayload newR, ?_, ?_⟩
      · simp [reprocessRow, reprocessPayload, htr, han, hparse, hne, hgood, hmore]
      · rw [if_pos (Or.inr hmore)]
        rfl
    · refine ⟨reprocessPayload
        { key_points := row.key_points, extracted_kpis := row.extracted_kpis,
          sentiment := row.sentiment.getD "neutral", ai_quotes := row.ai_quotes },
        ?_, ?_⟩
      · simp [reprocessRow, reprocessPayload, htr, han, hparse, hne, hgood, hmore]
      · rw [if_neg (by omega)]
        rfl
  · refine ⟨reprocessPayload newR, ?_, ?_⟩
    · simp [reprocessRow, reprocessPayload, htr, han, hparse, hne, hgood]
    · rw [if_pos (Or.inl (by omega))]
      rfl

/-- C2 witness: on `rowC2`/`renvC2` (`N = M = 2`) the update keeps the
stored KPI list. -/
theorem reprocess_kpi_overwrite_witness :
    ∃ u, reprocessRow renvC2 rowC2 = .updated u none ∧
      (applyUpdate rowC2 u).extracted_kpis = ["Old A: 1", "Old B: 2"] := by
  obtain ⟨u, h1, h2⟩ := reprocess_kpi_overwrite renvC2 rowC2
    "0123456789012345678901234567890123456789012345678901234" "new content"
    newResultC2 rfl (by decide) rfl rfl
  rw [if_neg (by decide)] at h2
  exact ⟨u, h1, h2.trans rfl⟩

/-- C2 counterexample: with `N = M = 2` (so `M ≥ N`) the stored KPI list
stays the old one and does not become the new `M`-item list, contradicting
the claimed `M ≥ N ⇒ overwrite` rule. -/
theorem reprocess_equal_count_keeps_old :
    (∃ u, reprocessRow renvC2 rowC2 = .updated u none ∧
      (applyUpdate rowC2 u).extracted_kpis = rowC2.extracted_kpis ∧
      (applyUpdate rowC2 u).extracted_kpis ≠ newResultC2.extracted_kpis) ∧
    rowC2.extracted_kpis.length ≤ newResultC2.extracted_kpis.length :=
  ⟨⟨_, rfl, rfl, by decide⟩, by decide⟩

/-- C9: every update issued by the reprocessing job writes exactly the
four analysis fields plus `updated_at`, and leaves the row's transcript,
status, video reference, document reference, notes and processing error
unchanged. -/
theorem reprocess_update_frame (renv : REnv) (row : Row) (u : RowUpdate)
    (e : Option String) (h : reprocessRow renv row = .updated u e) :
    u.key_points.isSome = true ∧ u.extracted_kpis.isSome = true ∧
    u.sentiment.isSome = true ∧ u.ai_quotes.isSome = true ∧
    u.updated_at = true ∧
    u.transcript = none ∧ u.status = none ∧ u.processing_error = none ∧
    (applyUpdate row u).transcript = row.transcript ∧
    (applyUpdate row u).status = row.status ∧
    (applyUpdate row u).video_files = row.video_files ∧
    (applyUpdate row u).docx_file = row.docx_file ∧
    (applyUpdate row u).notes = row.notes ∧
    (applyUpdate row u).processing_error = row.processing_error := by
  obtain ⟨r, rfl, -⟩ := reprocessRow_updated_shape renv row u e h
  exact ⟨rfl, rfl, rfl, rfl, rfl, rfl, rfl, rfl, rfl, rfl, rfl, rfl, rfl, rfl⟩

/-- C9 witness: the frame property at the concrete run on `rowC2`. -/
theorem reprocess_update_frame_witness :
    (applyUpdate rowC2 (reprocessPayload
      { key_points := ["old point"], extracted_kpis := ["Old A: 1", "Old B: 2"],
        sentiment := "neutral", ai_quotes := [] })).status = rowC2.status :=
  (reprocess_update_frame renvC2 rowC2 _ none rfl).2.2.2.2.2.2.2.2.2.1

theorem statusWrites_processSubmission (env : Env) :
    (statusWrites (processSubmission env)).length ≤ 1 ∧
    ∀ st ∈ statusWrites (processSubmission env), st = "completed" ∨ st = "failed" := by
  rcases processSubmission_shape env with ⟨d, t, a, ad, msg, he⟩ | ⟨d, t, msg, he⟩ |
    ⟨ft, dt, dok, r, he⟩ <;> rw [he]
  · simp [fatal, statusWrites]
  · unfold videoCatch
    by_cases hc : containsS msg "timed out"
    · rw [if_pos hc]
      simp [statusWrites, emptyUpdate]
    · rw [if_neg hc]
      simp [fatal, statusWrites]
  · unfold finish
    rcases hu : env.updateErr with _ | um
    · simp [statusWrites]
    · simp [fatal, statusWrites]

/-- C8 amended: a submission is created with status `processing`; each
pipeline invocation writes the status at most once and only to a terminal
value (`completed` or `failed`); and the reprocessing job never writes
the status at all — so no operation ever moves a row back to
`processing`. -/
theorem status_discipline :
    (∀ vf docx notes, (newSubmission vf docx notes).status = "processing") ∧
    (∀ env : Env, (statusWrites (processSubmission env)).length ≤ 1 ∧
      ∀ st ∈ statusWrites (processSubmission env), st = "completed" ∨ st = "failed") ∧
    (∀ renv row u e, reprocessRow renv row = .updated u e → u.status = none) := by
  refine ⟨fun _ _ _ => rfl, statusWrites_processSubmission, ?_⟩
  intro renv row u e h
  obtain ⟨r, rfl, -⟩ := reprocessRow_updated_shape renv row u e h
  rfl

/-- C8 witness: the discipline applied to a freshly created row. -/
theorem status_discipline_witness :
    (newSubmission { path := some "u1/video.webm", name := none } none none).status =
      "processing" :=
  status_discipline.1 { path := some "u1/video.webm", name := none } none none

/-- C8 counterexample: an invocation that hits the generic fatal path
writes the status zero times — not exactly once — and leaves the row in
`processing`. -/
theorem status_unchanged_on_fatal :
    statusWrites (processSubmission envC8) = [] ∧
    (processSubmission envC8).response = .failure 500 "Invalid video file structure" :=
  ⟨rfl, rfl⟩

end InfoSight
